import Mathlib

/-!
# go-users-api: age derivation, service, repository and handlers

A shallow embedding of the Go sources

* `internal/service/user_service.go` (`calculateAge`, `Create`, `Get`, `List`,
  `Update`, `Delete`),
* `internal/repository/user_repository.go` (`toPgDate`, `toInt32`, the five
  repository methods),
* `internal/handler/user_handler.go` (`parseID` and the five handlers),
* `internal/models/user.go` (the `User` view and its JSON tags),

together with the parts of the Go standard library they call
(`time.Parse` with layout `2006-01-02`, `strconv.ParseInt(s, 10, 64)`,
`time.Time.MarshalJSON`, `encoding/json` on the `User` struct).

Go `int`, `int32` and `int64` values are modelled as `Int`; the one narrowing
conversion of the program (`toInt32`) wraps explicitly modulo `2 ^ 32`.
Effects on the store are modelled by explicit state passing; a Go result
pair `(value, error)` is a Lean pair `value × Option GoError`.
-/

namespace GoUsersApi

/-! ## `time.Time` -/

/-- A `time.Time` as the program observes it: the civil date and clock reading
in the value's own location, and that location's offset east of UTC in
seconds.  `Year()`, `Month()` and `Day()` are the first three fields. -/
structure Time where
  year : Int
  month : Nat
  day : Nat
  hour : Nat
  minute : Nat
  second : Nat
  nanosecond : Nat
  offset : Int
  deriving DecidableEq, Repr

/-- The value `time.Date(y, m, d, 0, 0, 0, 0, time.UTC)` for an in-range
civil date: midnight UTC. -/
def Time.midnightUTC (y : Int) (m d : Nat) : Time :=
  { year := y, month := m, day := d, hour := 0, minute := 0, second := 0,
    nanosecond := 0, offset := 0 }

/-- The zero `time.Time`, `time.Time{}`: January 1, year 1, 00:00:00 UTC. -/
def Time.zero : Time := Time.midnightUTC 1 1 1

/-! ## `calculateAge` (user_service.go, lines 27-37) -/

/-- The Go function `calculateAge(dob, now time.Time) int`.  The years of
two `time.Time` values are far below `2 ^ 62` in absolute value, so the
subtraction does not overflow the 64-bit `int`. -/
def calculateAge (dob now : Time) : Int :=
  let years := now.year - dob.year
  let years :=
    if now.month < dob.month ∨ (now.month = dob.month ∧ now.day < dob.day) then
      years - 1
    else
      years
  if years < 0 then 0 else years

/-- Calendar order on `(year, month, day)` triples, lexicographic:
`dateLE y m d y' m' d'` says the first date is not after the second. -/
def dateLE (y : Int) (m d : Nat) (y' : Int) (m' d' : Nat) : Prop :=
  y < y' ∨ (y = y' ∧ (m < m' ∨ (m = m' ∧ d ≤ d')))

instance (y : Int) (m d : Nat) (y' : Int) (m' d' : Nat) :
    Decidable (dateLE y m d y' m' d') := by
  unfold dateLE; infer_instance

/-- The calendar date of one `Time` is not after that of another. -/
def Time.dateNotAfter (a b : Time) : Prop :=
  dateLE a.year a.month a.day b.year b.month b.day

instance (a b : Time) : Decidable (a.dateNotAfter b) := by
  unfold Time.dateNotAfter; infer_instance

/-- The `n`-th anniversary of `dob` is not after `now`:
`(dob.year + n, dob.month, dob.day) ≤ (now.year, now.month, now.day)`. -/
def anniversaryReached (dob now : Time) (n : Nat) : Prop :=
  dateLE (dob.year + n) dob.month dob.day now.year now.month now.day

instance (dob now : Time) (n : Nat) : Decidable (anniversaryReached dob now n) := by
  unfold anniversaryReached; infer_instance

/-! ## Errors -/

/-- Go `error` values the program can meet: the no-rows sentinel of the
database driver (`pgx.ErrNoRows`), a `*time.ParseError` (with the offending
value and the message suffix), a `*strconv.NumError` wrapping `ErrSyntax` or
`ErrRange`, the error of `time.Time.MarshalJSON`, and any other error,
identified by its message. -/
inductive GoError where
  | errNoRows
  | parseError (value : String) (message : String)
  | numSyntax (num : String)
  | numRange (num : String)
  | marshalTime (message : String)
  | other (message : String)
  deriving DecidableEq, Repr

/-! ## `time.Parse("2006-01-02", value)` (Go standard library, package `time`)

A Go `string` is scanned byte by byte.  The scanners below run over the
characters of the string; the only bytes they accept are ASCII digits and
`-`, each of which is one byte and one character, so a string is accepted
with the same result under both readings. -/

/-- The byte test `'0' <= c && c <= '9'`. -/
def isDigitChar (c : Char) : Bool := decide (48 ≤ c.toNat) && decide (c.toNat ≤ 57)

/-- `isDigit(s, i)` of package `time`: the string has an `i`-th byte and it
is a decimal digit. -/
def isDigit (s : List Char) (i : Nat) : Bool :=
  match s.get? i with
  | some c => isDigitChar c
  | none => false

/-- The loop of `leadingInt(s)`, with the accumulator `x`: consumes leading
digits; fails on overflow past `1 << 63`. Returns the number and the rest. -/
def leadingIntLoop : List Char → Nat → Option (Nat × List Char)
  | [], x => some (x, [])
  | c :: rest, x =>
    if c.toNat < 48 ∨ c.toNat > 57 then some (x, c :: rest)
    else if x > 2 ^ 63 / 10 then none
    else
      let x1 := x * 10 + c.toNat - 48
      if x1 > 2 ^ 63 then none else leadingIntLoop rest x1

/-- `leadingInt(s)` of package `time`. -/
def leadingInt (s : List Char) : Option (Nat × List Char) := leadingIntLoop s 0

/-- `atoi(s)` of package `time`: an optional sign, then digits only. -/
def atoi (s : List Char) : Option Int :=
  let neg := match s with
    | c :: _ => decide (c = '-')
    | [] => false
  let s1 := match s with
    | c :: rest => if c = '-' ∨ c = '+' then rest else c :: rest
    | [] => []
  match leadingInt s1 with
  | none => none
  | some (q, rem) =>
    if rem.length > 0 then none
    else if neg then some (-(q : Int)) else some (q : Int)

/-- `getnum(s, fixed)` of package `time`: one or two leading digits (exactly
two when `fixed`). -/
def getnum (s : List Char) (fixed : Bool) : Option (Nat × List Char) :=
  if !isDigit s 0 then none
  else if !isDigit s 1 then
    if fixed then none
    else
      match s with
      | c :: rest => some (c.toNat - 48, rest)
      | [] => none
  else
    match s with
    | c0 :: c1 :: rest => some ((c0.toNat - 48) * 10 + (c1.toNat - 48), rest)
    | _ => none

/-- `skip(value, prefix)` of package `time` for the one-byte literal `-`:
the value must start with it. -/
def skipDash (value : List Char) : Option (List Char) :=
  match value with
  | c :: rest => if c = '-' then some rest else none
  | [] => none

/-- `isLeap(year)` of package `time`. -/
def isLeap (year : Int) : Bool :=
  decide (year % 4 = 0) && (decide (year % 100 ≠ 0) || decide (year % 400 = 0))

/-- The table `daysBefore` of package `time`: days in a non-leap year before
the end of month `m` (index 0 is 0). -/
def daysBefore : List Nat := [0, 31, 59, 90, 120, 151, 181, 212, 243, 273, 304, 334, 365]

/-- `daysIn(m, year)` of package `time`, for a month `1 ≤ m ≤ 12`. -/
def daysIn (m : Nat) (year : Int) : Nat :=
  if m = 2 ∧ isLeap year = true then 29
  else daysBefore.getD m 0 - daysBefore.getD (m - 1) 0

/-- The call `time.Parse("2006-01-02", value)`.  The layout has the chunks
`2006` (four digits, read by `atoi`), `-`, `01` (two digits, range checked
at once), `-`, `02` (two digits); nothing may follow; the day is validated
against the month and year at the end; the result is midnight UTC. -/
def timeParse (value : String) : Except GoError Time :=
  let bad := fun (msg : String) => (Except.error (GoError.parseError value msg) : Except GoError Time)
  let v := value.data
  -- stdLongYear
  if v.length < 4 ∨ !isDigit v 0 then bad "" else
  match atoi (v.take 4) with
  | none => bad ""
  | some year =>
    -- prefix "-", stdZeroMonth
    match skipDash (v.drop 4) with
    | none => bad ""
    | some v1 =>
      match getnum v1 true with
      | none => bad ""
      | some (month, v2) =>
        if month ≤ 0 ∨ 12 < month then bad ": month out of range" else
        -- prefix "-", stdZeroDay
        match skipDash v2 with
        | none => bad ""
        | some v3 =>
          match getnum v3 true with
          | none => bad ""
          | some (day, v4) =>
            if v4.length ≠ 0 then bad (": extra text: " ++ String.mk v4)
            else if day < 1 ∨ day > daysIn month year then bad ": day out of range"
            else Except.ok (Time.midnightUTC year month day)

/-- A string is a valid calendar date in strict `YYYY-MM-DD` form: exactly
four digits, a dash, two digits, a dash, two digits, with the month in
`1..12` and the day in `1..` the length of that month in that year
(February has 29 days in leap years of the proleptic Gregorian calendar). -/
def isStrictYMD (s : String) : Bool :=
  match s.data with
  | [y0, y1, y2, y3, a, m0, m1, b, d0, d1] =>
    let year : Int := (y0.toNat - 48) * 1000 + (y1.toNat - 48) * 100 + (y2.toNat - 48) * 10 + (y3.toNat - 48)
    let month := (m0.toNat - 48) * 10 + (m1.toNat - 48)
    let day := (d0.toNat - 48) * 10 + (d1.toNat - 48)
    let monthLength :=
      if month = 2 then
        (if year % 4 = 0 ∧ (year % 100 ≠ 0 ∨ year % 400 = 0) then 29 else 28)
      else if month = 4 ∨ month = 6 ∨ month = 9 ∨ month = 11 then 30
      else 31
    [y0, y1, y2, y3, m0, m1, d0, d1].all isDigitChar && decide (a = '-') && decide (b = '-')
      && decide (1 ≤ month) && decide (month ≤ 12) && decide (1 ≤ day) && decide (day ≤ monthLength)
  | _ => false

/-! ## `strconv.ParseInt(s, 10, 64)` (Go standard library, package `strconv`) -/

/-- The function `lower(c)` of package `strconv`: `c | ('x' - 'X')`. -/
def lower (c : Nat) : Nat := c ||| 32

/-- The loop of `strconv.ParseUint(s, 10, 64)` over the bytes of `s`, with
the accumulator `n` (a `uint64`): `s0` is the whole argument, for the error.
`cutoff` is `maxUint64/10 + 1` and `maxVal` is `1<<64 - 1`; the sum `n1`
is computed in `uint64`, so it wraps modulo `2 ^ 64`. -/
def parseUintLoop (s0 : String) : List Char → Nat → Except GoError Nat
  | [], n => Except.ok n
  | c :: rest, n =>
    let base := 10
    let cutoff := (2 ^ 64 - 1) / 10 + 1
    let maxVal := 2 ^ 64 - 1
    let b := c.toNat
    let d? : Option Nat :=
      if 48 ≤ b ∧ b ≤ 57 then some (b - 48)
      else if 97 ≤ lower b ∧ lower b ≤ 122 then some (lower b - 97 + 10)
      else none
    match d? with
    | none => Except.error (GoError.numSyntax s0)
    | some d =>
      if d ≥ base then Except.error (GoError.numSyntax s0)
      else if n ≥ cutoff then Except.error (GoError.numRange s0)
      else
        let n := n * base
        let n1 := (n + d) % 2 ^ 64
        if n1 < n ∨ n1 > maxVal then Except.error (GoError.numRange s0)
        else parseUintLoop s0 rest n1

/-- `strconv.ParseUint(s, 10, 64)`: the empty string is a syntax error. -/
def parseUint (s : List Char) : Except GoError Nat :=
  if s = [] then Except.error (GoError.numSyntax (String.mk s))
  else parseUintLoop (String.mk s) s 0

/-- `strconv.ParseInt(s, 10, 64)`: an optional sign, then `ParseUint`, then
the range check against `cutoff = 1 << 63`.  A range error of `ParseUint`
leaves `un = maxVal`, which fails the range check here as well; the value
returned next to an error is not used by the program. -/
def parseInt (s : String) : Except GoError Int :=
  match s.data with
  | [] => Except.error (GoError.numSyntax s)
  | c :: rest =>
    let neg := decide (c = '-')
    let s1 := if c = '+' ∨ c = '-' then rest else c :: rest
    let cutoff := 2 ^ 63
    match parseUint s1 with
    | Except.error (GoError.numRange _) => Except.error (GoError.numRange s)
    | Except.error _ => Except.error (GoError.numSyntax s)
    | Except.ok un =>
      if !neg ∧ un ≥ cutoff then Except.error (GoError.numRange s)
      else if neg ∧ un > cutoff then Except.error (GoError.numRange s)
      else if neg then Except.ok (-(un : Int)) else Except.ok (un : Int)

/-- The value of a string of decimal digits. -/
def decimalValue (ds : List Char) : Nat :=
  ds.foldl (fun n c => 10 * n + (c.toNat - 48)) 0

/-- A string writes a base-10 integer representable in 64 bits: an optional
sign (`+` or `-`), then at least one decimal digit and nothing else, the
value lying in `-2 ^ 63 .. 2 ^ 63 - 1`. -/
def isBase10Int64 (s : String) : Bool :=
  let digitsOK := fun (ds : List Char) => !ds.isEmpty && ds.all isDigitChar
  match s.data with
  | [] => false
  | c :: rest =>
    if c = '-' then digitsOK rest && decide (decimalValue rest ≤ 2 ^ 63)
    else if c = '+' then digitsOK rest && decide (decimalValue rest < 2 ^ 63)
    else digitsOK (c :: rest) && decide (decimalValue (c :: rest) < 2 ^ 63)

/-! ## `time.Time.MarshalJSON` (Go standard library, package `time`) -/

/-- The decimal digit `d` as a byte. -/
def digitChar (d : Nat) : Char := Char.ofNat (48 + d)

/-- `appendInt(b, x, width)` of package `time`: the decimal form of `x`,
zero-padded to `width` digits, after a `-` when `x` is negative.  The two
special cases (two digits below 100, four digits below 10000) are those of
the Go function. -/
def appendInt (x : Int) (width : Nat) : List Char :=
  let sign : List Char := if x < 0 then ['-'] else []
  let u := x.natAbs
  if width = 2 ∧ u < 100 then
    sign ++ [digitChar (u / 10), digitChar (u % 10)]
  else if width = 4 ∧ u < 10000 then
    sign ++ [digitChar (u / 100 / 10), digitChar (u / 100 % 10),
             digitChar (u % 100 / 10), digitChar (u % 100 % 10)]
  else
    let digits := Nat.toDigits 10 u
    sign ++ List.replicate (width - digits.length) '0' ++ digits

/-- Drops the trailing `0` bytes of a digit string. -/
def trimTrailingZeros (b : List Char) : List Char :=
  (b.reverse.dropWhile (fun c => c = '0')).reverse

/-- `appendNano(b, nanosec, std)` of package `time` for the trimming
nine-digit fraction of `RFC3339Nano`: nothing for zero nanoseconds,
otherwise `.` and the nine digits without trailing zeros. -/
def appendNano (nanosec : Nat) : List Char :=
  if nanosec = 0 then []
  else '.' :: trimTrailingZeros (appendInt nanosec 9)

/-- `Time.appendFormatRFC3339(b, true)`: date, `T`, clock, fraction, zone
(`Z` for offset 0, else sign, hours, `:`, minutes; Go's integer division
truncates towards zero). -/
def appendFormatRFC3339 (t : Time) : List Char :=
  let date := appendInt t.year 4 ++ ['-'] ++ appendInt t.month 2 ++ ['-'] ++ appendInt t.day 2
  let clock := appendInt t.hour 2 ++ [':'] ++ appendInt t.minute 2 ++ [':'] ++ appendInt t.second 2
  let zone : List Char :=
    if t.offset = 0 then ['Z']
    else
      let z := Int.tdiv t.offset 60
      let sign := if z < 0 then '-' else '+'
      let z := z.natAbs
      [sign] ++ appendInt (z / 60) 2 ++ [':'] ++ appendInt (z % 60) 2
  date ++ ['T'] ++ clock ++ appendNano t.nanosecond ++ zone

/-- `Time.MarshalJSON`, as the text between the quotes: the strict RFC 3339
form, refused when the year is not exactly four digits wide (outside
`0..9999`) or the zone hour is not below 24. -/
def timeMarshalJSON (t : Time) : Except GoError String :=
  if t.year < 0 ∨ t.year > 9999 then
    Except.error (GoError.marshalTime "Time.MarshalJSON: year outside of range [0,9999]")
  else if t.offset ≠ 0 ∧ (Int.tdiv t.offset 60).natAbs / 60 ≥ 24 then
    Except.error (GoError.marshalTime "Time.MarshalJSON: timezone hour outside of range [0,23]")
  else Except.ok (String.mk (appendFormatRFC3339 t))

/-! ## Data model (`internal/models/user.go`, and the types of `db/sqlc`) -/

/-- The struct `models.User`, the view returned to clients. -/
structure User where
  ID : Int
  Name : String
  Dob : Time
  Age : Int
  deriving DecidableEq, Repr

/-- The zero value `models.User{}`. -/
def User.empty : User := { ID := 0, Name := "", Dob := Time.zero, Age := 0 }

/-- The struct `models.CreateUserRequest`. -/
structure CreateUserRequest where
  Name : String
  Dob : String
  deriving DecidableEq, Repr

/-- The struct `models.UpdateUserRequest`. -/
structure UpdateUserRequest where
  Name : String
  Dob : String
  deriving DecidableEq, Repr

/-- The struct `pgtype.Date` of the database driver, as far as the program
touches it. -/
structure PgDate where
  Time : Time
  Valid : Bool
  deriving DecidableEq, Repr

/-- The struct `db.User` (generated by sqlc, declared outside the sources at
hand; its fields are those the service reads): a stored record, its `ID` an
`int32`. -/
structure DbUser where
  ID : Int
  Name : String
  Dob : PgDate
  deriving DecidableEq, Repr

/-- The zero value `db.User{}`. -/
def DbUser.empty : DbUser := { ID := 0, Name := "", Dob := { Time := Time.zero, Valid := false } }

/-- The struct `db.CreateUserParams`. -/
structure CreateUserParams where
  Name : String
  Dob : PgDate
  deriving DecidableEq, Repr

/-- The struct `db.UpdateUserParams`. -/
structure UpdateUserParams where
  Name : String
  Dob : PgDate
  ID : Int
  deriving DecidableEq, Repr

/-! ## JSON encoding of the view (`encoding/json` on the tags of `models.User`) -/

/-- A JSON scalar. -/
inductive JValue where
  | num (n : Int)
  | str (s : String)
  deriving DecidableEq, Repr

/-- A JSON object, as its fields in order. -/
abbrev JObject := List (String × JValue)

/-- The value of a field of a JSON object, when the object has the field. -/
def JObject.field (o : JObject) (key : String) : Option JValue :=
  (o.find? (fun kv => kv.1 = key)).map (fun kv => kv.2)

/-- `json.Marshal` of a `models.User`: the fields `id`, `name`, `dob` (through
`Time.MarshalJSON`, whose error fails the whole encoding) and `age`, the
last one tagged `omitempty` and so left out when it is the zero `int`. -/
def marshalUser (u : User) : Except GoError JObject :=
  match timeMarshalJSON u.Dob with
  | Except.error e => Except.error e
  | Except.ok dob =>
    Except.ok ([("id", JValue.num u.ID), ("name", JValue.str u.Name), ("dob", JValue.str dob)]
      ++ (if u.Age = 0 then [] else [("age", JValue.num u.Age)]))

/-- `json.Marshal` of a `[]models.User`: every element, the first error
failing the whole encoding. -/
def marshalUsers : List User → Except GoError (List JObject)
  | [] => Except.ok []
  | u :: us =>
    match marshalUser u with
    | Except.error e => Except.error e
    | Except.ok o =>
      match marshalUsers us with
      | Except.error e => Except.error e
      | Except.ok os => Except.ok (o :: os)

/-! ## Repository (`internal/repository/user_repository.go`) -/

/-- The methods of `*db.Queries` the repository calls (generated by sqlc,
outside the sources at hand), over a store state `σ`. -/
structure Queries (σ : Type) where
  CreateUser : CreateUserParams → σ → (DbUser × Option GoError) × σ
  GetUser : Int → σ → (DbUser × Option GoError) × σ
  ListUsers : σ → (List DbUser × Option GoError) × σ
  UpdateUser : UpdateUserParams → σ → (DbUser × Option GoError) × σ
  DeleteUser : Int → σ → Option GoError × σ

/-- The interface `repository.UserRepository`. -/
structure UserRepository (σ : Type) where
  Create : String → Time → σ → (DbUser × Option GoError) × σ
  GetByID : Int → σ → (DbUser × Option GoError) × σ
  List : σ → (List DbUser × Option GoError) × σ
  Update : Int → String → Time → σ → (DbUser × Option GoError) × σ
  Delete : Int → σ → Option GoError × σ

/-- The Go function `toPgDate`. -/
def toPgDate (t : Time) : PgDate := { Time := t, Valid := true }

/-- The Go function `toInt32(id int64) int32`, the conversion `int32(id)`:
the low 32 bits of `id`, read as a signed number. -/
def toInt32 (id : Int) : Int := (id + 2 ^ 31) % 2 ^ 32 - 2 ^ 31

/-- The Go type `userRepository` with its five methods, over the queries `q`. -/
def userRepository {σ : Type} (q : Queries σ) : UserRepository σ where
  Create := fun name dob s => q.CreateUser { Name := name, Dob := toPgDate dob } s
  GetByID := fun id s => q.GetUser (toInt32 id) s
  List := fun s => q.ListUsers s
  Update := fun id name dob s => q.UpdateUser { Name := name, Dob := toPgDate dob, ID := toInt32 id } s
  Delete := fun id s => q.DeleteUser (toInt32 id) s

/-! ## Service (`internal/service/user_service.go`)

The clock reading `time.Now()` of `Get` and of `List` is the argument `now`.
The conversion `int64(u.ID)` widens an `int32` and keeps its value. -/

/-- The method `userService.Create`. -/
def svcCreate {σ : Type} (repo : UserRepository σ) (req : CreateUserRequest) (s : σ) :
    (User × Option GoError) × σ :=
  match timeParse req.Dob with
  | Except.error err => ((User.empty, some err), s)
  | Except.ok dob =>
    match repo.Create req.Name dob s with
    | ((_, some err), s1) => ((User.empty, some err), s1)
    | ((u, none), s1) =>
      let d := u.Dob.Time
      (({ ID := u.ID, Name := u.Name, Dob := d, Age := 0 }, none), s1)

/-- The method `userService.Get`. -/
def svcGet {σ : Type} (repo : UserRepository σ) (now : Time) (id : Int) (s : σ) :
    (User × Option GoError) × σ :=
  match repo.GetByID id s with
  | ((_, some err), s1) => ((User.empty, some err), s1)
  | ((u, none), s1) =>
    let d := u.Dob.Time
    (({ ID := u.ID, Name := u.Name, Dob := d, Age := calculateAge d now }, none), s1)

/-- The loop of `userService.List`: appends the view of each record to `out`. -/
def svcListLoop (now : Time) : List DbUser → List User → List User
  | [], out => out
  | u :: us, out =>
    let d := u.Dob.Time
    svcListLoop now us (out ++ [{ ID := u.ID, Name := u.Name, Dob := d, Age := calculateAge d now }])

/-- The method `userService.List`; `now` is read once, before the loop. -/
def svcList {σ : Type} (repo : UserRepository σ) (now : Time) (s : σ) :
    (List User × Option GoError) × σ :=
  match repo.List s with
  | ((_, some err), s1) => (([], some err), s1)
  | ((us, none), s1) => ((svcListLoop now us [], none), s1)

/-- The method `userService.Update`. -/
def svcUpdate {σ : Type} (repo : UserRepository σ) (id : Int) (req : UpdateUserRequest) (s : σ) :
    (User × Option GoError) × σ :=
  match timeParse req.Dob with
  | Except.error err => ((User.empty, some err), s)
  | Except.ok dob =>
    match repo.Update id req.Name dob s with
    | ((_, some err), s1) => ((User.empty, some err), s1)
    | ((u, none), s1) =>
      let d := u.Dob.Time
      (({ ID := u.ID, Name := u.Name, Dob := d, Age := 0 }, none), s1)

/-- The method `userService.Delete`. -/
def svcDelete {σ : Type} (repo : UserRepository σ) (id : Int) (s : σ) : Option GoError × σ :=
  repo.Delete id s

/-- The interface `service.UserService`. -/
structure UserService (σ : Type) where
  Create : CreateUserRequest → σ → (User × Option GoError) × σ
  Get : Int → σ → (User × Option GoError) × σ
  List : σ → (List User × Option GoError) × σ
  Update : Int → UpdateUserRequest → σ → (User × Option GoError) × σ
  Delete : Int → σ → Option GoError × σ

/-- `NewUserService(r)`: the service over the repository `r`, serving a
request at the clock reading `now`. -/
def NewUserService {σ : Type} (r : UserRepository σ) (now : Time) : UserService σ where
  Create := svcCreate r
  Get := svcGet r now
  List := svcList r now
  Update := svcUpdate r
  Delete := svcDelete r

/-! ## Handlers (`internal/handler/user_handler.go`) -/

/-- The body of an HTTP response: nothing, the object `fiber.Map` with the
one key `error`, one encoded user, a list of encoded users, or plain text
(what the framework's default error handler sends for a returned error). -/
inductive Body where
  | empty
  | error (message : String)
  | user (o : JObject)
  | users (os : List JObject)
  | text (message : String)
  deriving DecidableEq, Repr

/-- An HTTP response: status code and body. -/
structure Response where
  status : Nat
  body : Body
  deriving DecidableEq, Repr

/-- What a handler leaves behind: the response, the entries it wrote to the
error log (message and error), and the state of the store. -/
structure Outcome (σ : Type) where
  response : Response
  logged : List (String × GoError)
  state : σ

/-- The request as a handler reads it: the path parameter `id`
(`c.Params("id")`) and the raw body. -/
structure Ctx where
  id : String
  body : String
  deriving DecidableEq, Repr

/-- The framework's `c.BodyParser` for the two request types and
`models.Validate.Struct` on them (both outside the sources at hand):
`none` from a parser is a parse failure, `some text` from a validator is a
validation error with that text. -/
structure Binding where
  parseCreate : String → Option CreateUserRequest
  parseUpdate : String → Option UpdateUserRequest
  validateCreate : CreateUserRequest → Option String
  validateUpdate : UpdateUserRequest → Option String

/-- The Go function `parseID`. -/
def parseID (c : Ctx) : Except GoError Int := parseInt c.id

/-- The text of the error `json.Marshal` returns when `Time.MarshalJSON`
fails, which is what the default error handler sends. -/
def marshalErrorText (e : GoError) : String :=
  match e with
  | GoError.marshalTime message => "json: error calling MarshalJSON for type time.Time: " ++ message
  | _ => "json: error calling MarshalJSON for type time.Time"

/-- `c.Status(code).JSON(u)` for a user: the encoding as the body, or, when
the encoding fails, the default error handler's answer 500 with the error's
text. -/
def respondUser (code : Nat) (u : User) : Response :=
  match marshalUser u with
  | Except.ok o => { status := code, body := Body.user o }
  | Except.error e => { status := 500, body := Body.text (marshalErrorText e) }

/-- `c.JSON(us)` for a list of users. -/
def respondUsers (code : Nat) (us : List User) : Response :=
  match marshalUsers us with
  | Except.ok os => { status := code, body := Body.users os }
  | Except.error e => { status := 500, body := Body.text (marshalErrorText e) }

/-- The handler `UserHandler.CreateUser`. -/
def CreateUser {σ : Type} (svc : UserService σ) (bind : Binding) (c : Ctx) (s : σ) : Outcome σ :=
  match bind.parseCreate c.body with
  | none => { response := { status := 400, body := Body.error "invalid JSON" }, logged := [], state := s }
  | some req =>
    match bind.validateCreate req with
    | some text => { response := { status := 400, body := Body.error text }, logged := [], state := s }
    | none =>
      match svc.Create req s with
      | ((_, some err), s1) =>
        { response := { status := 500, body := Body.error "failed to create user" },
          logged := [("create user failed", err)], state := s1 }
      | ((u, none), s1) => { response := respondUser 201 u, logged := [], state := s1 }

/-- The handler `UserHandler.GetUser`. -/
def GetUser {σ : Type} (svc : UserService σ) (c : Ctx) (s : σ) : Outcome σ :=
  match parseID c with
  | Except.error _ =>
    { response := { status := 400, body := Body.error "invalid id" }, logged := [], state := s }
  | Except.ok id =>
    match svc.Get id s with
    | ((_, some err), s1) =>
      { response := { status := 404, body := Body.error "user not found" },
        logged := [("get user failed", err)], state := s1 }
    | ((u, none), s1) => { response := respondUser 200 u, logged := [], state := s1 }

/-- The handler `UserHandler.ListUsers`. -/
def ListUsers {σ : Type} (svc : UserService σ) (s : σ) : Outcome σ :=
  match svc.List s with
  | ((_, some err), s1) =>
    { response := { status := 500, body := Body.error "failed to list users" },
      logged := [("list users failed", err)], state := s1 }
  | ((us, none), s1) => { response := respondUsers 200 us, logged := [], state := s1 }

/-- The handler `UserHandler.UpdateUser`. -/
def UpdateUser {σ : Type} (svc : UserService σ) (bind : Binding) (c : Ctx) (s : σ) : Outcome σ :=
  match parseID c with
  | Except.error _ =>
    { response := { status := 400, body := Body.error "invalid id" }, logged := [], state := s }
  | Except.ok id =>
    match bind.parseUpdate c.body with
    | none => { response := { status := 400, body := Body.error "invalid JSON" }, logged := [], state := s }
    | some req =>
      match bind.validateUpdate req with
      | some text => { response := { status := 400, body := Body.error text }, logged := [], state := s }
      | none =>
        match svc.Update id req s with
        | ((_, some err), s1) =>
          { response := { status := 500, body := Body.error "failed to update user" },
            logged := [("update user failed", err)], state := s1 }
        | ((u, none), s1) => { response := respondUser 200 u, logged := [], state := s1 }

/-- The handler `UserHandler.DeleteUser`. -/
def DeleteUser {σ : Type} (svc : UserService σ) (c : Ctx) (s : σ) : Outcome σ :=
  match parseID c with
  | Except.error _ =>
    { response := { status := 400, body := Body.error "invalid id" }, logged := [], state := s }
  | Except.ok id =>
    match svc.Delete id s with
    | (some err, s1) =>
      { response := { status := 500, body := Body.error "failed to delete user" },
        logged := [("delete user failed", err)], state := s1 }
    | (none, s1) => { response := { status := 204, body := Body.empty }, logged := [], state := s1 }

/-! ## The store -/

/-- Modelled from the spec: a row of the users table, "columns (id, name,
dob)": identifier, name, and the date of birth as a date-only value (year,
month, day). -/
structure Row where
  id : Int
  name : String
  year : Int
  month : Nat
  day : Nat
  deriving DecidableEq, Repr

/-- Modelled from the spec: the users table behind `db.Queries` (the
generated queries and the database are outside the sources at hand), "a
users table with columns (id, name, dob)", as a finite map from identifier
to (name, date), kept as the list of its rows in storage order. -/
abbrev Store := List Row

/-- Modelled from the spec: the record the queries return for a row; the
date of birth comes back as midnight UTC of the stored date ("a date-only
value (no time-of-day, no timezone)"). -/
def Row.toDbUser (r : Row) : DbUser :=
  { ID := r.id, Name := r.name,
    Dob := { Time := Time.midnightUTC r.year r.month r.day, Valid := true } }

/-- Modelled from the spec: the identifier storage assigns to the next row,
"integer, unique, assigned by storage": one more than every identifier in
use, starting at 1. -/
def Store.nextID (s : Store) : Int := s.foldl (fun m r => max m r.id) 0 + 1

/-- Modelled from the spec: the five statements of `db.Queries` (insert,
select-by-id, select-all, update, delete) over the table.  Insert stores
the name and the calendar date of the given time under a fresh identifier,
and fails when that identifier no longer fits the 32-bit identifier column;
select-by-id and update report the no-rows condition for a missing row;
delete removes the row if present. -/
def storeQueries : Queries Store where
  CreateUser := fun p s =>
    let id := Store.nextID s
    if id > 2 ^ 31 - 1 then ((DbUser.empty, some (GoError.other "integer out of range")), s)
    else
      let r : Row := { id := id, name := p.Name, year := p.Dob.Time.year,
                       month := p.Dob.Time.month, day := p.Dob.Time.day }
      ((r.toDbUser, none), s ++ [r])
  GetUser := fun id s =>
    match s.find? (fun r => r.id = id) with
    | some r => ((r.toDbUser, none), s)
    | none => ((DbUser.empty, some GoError.errNoRows), s)
  ListUsers := fun s => ((s.map Row.toDbUser, none), s)
  UpdateUser := fun p s =>
    match s.find? (fun r => r.id = p.ID) with
    | some _ =>
      let r : Row := { id := p.ID, name := p.Name, year := p.Dob.Time.year,
                       month := p.Dob.Time.month, day := p.Dob.Time.day }
      ((r.toDbUser, none), s.map (fun x => if x.id = p.ID then r else x))
    | none => ((DbUser.empty, some GoError.errNoRows), s)
  DeleteUser := fun id s => (none, s.filter (fun r => r.id ≠ id))

/-- Queries against a database that cannot be reached: every statement
fails with the same connection error and the state (nothing) is unchanged. -/
def unreachableQueries : Queries Unit where
  CreateUser := fun _ s => ((DbUser.empty, some (GoError.other "connection refused")), s)
  GetUser := fun _ s => ((DbUser.empty, some (GoError.other "connection refused")), s)
  ListUsers := fun s => (([], some (GoError.other "connection refused")), s)
  UpdateUser := fun _ s => ((DbUser.empty, some (GoError.other "connection refused")), s)
  DeleteUser := fun _ s => (some (GoError.other "connection refused"), s)

/-! # Theorems -/

/-! ## Age derivation -/

/-- C1: `calculateAge dob now` is the floor of the full elapsed years, clamped
at 0.  It is never negative; every `n` whose anniversary
`(dob.year + n, dob.month, dob.day)` is not after the date of `now` is at
most the age; when some anniversary is reached, the one numbered by the age
is reached too (so the age is the largest such `n`); and when none is
reached (`dob` after `now`) the age is 0.  The five cases of the
specification and of `TestCalculateAge` evaluate to 35, 34, 25, 34 and 0. -/
theorem calculateAge_floor_of_elapsed_years (dob now : Time) :
    0 ≤ calculateAge dob now
    ∧ (∀ n : Nat, anniversaryReached dob now n → (n : Int) ≤ calculateAge dob now)
    ∧ ((∃ n : Nat, anniversaryReached dob now n) →
        anniversaryReached dob now (calculateAge dob now).toNat)
    ∧ ((¬ ∃ n : Nat, anniversaryReached dob now n) → calculateAge dob now = 0)
    ∧ calculateAge (Time.midnightUTC 1990 5 10) { Time.midnightUTC 2025 5 10 with hour := 12 } = 35
    ∧ calculateAge (Time.midnightUTC 1990 5 10) { Time.midnightUTC 2025 5 9 with hour := 12 } = 34
    ∧ calculateAge (Time.midnightUTC 2000 2 29) (Time.midnightUTC 2025 3 1) = 25
    ∧ calculateAge (Time.midnightUTC 1990 12 31) (Time.midnightUTC 2025 1 1) = 34
    ∧ calculateAge (Time.midnightUTC 2030 1 1) (Time.midnightUTC 2025 12 15) = 0 := by
  refine ⟨?_, ?_, ?_, ?_, by decide, by decide, by decide, by decide, by decide⟩
  · simp only [calculateAge]
    split_ifs <;> omega
  · intro n hn
    simp only [anniversaryReached, dateLE] at hn
    simp only [calculateAge]
    split_ifs <;> omega
  · rintro ⟨n, hn⟩
    simp only [anniversaryReached, dateLE] at hn ⊢
    simp only [calculateAge]
    split_ifs <;> omega
  · intro hnone
    have h0 : ¬ anniversaryReached dob now 0 := fun h => hnone ⟨0, h⟩
    simp only [anniversaryReached, dateLE] at h0
    simp only [calculateAge]
    split_ifs <;> omega

/-- C2, as stated, fails for a date of birth in a later year than `now`: for
dob 2030-01-01 and now 2025-12-15 the age is 0, above `now.year - dob.year = -5`. -/
theorem calculateAge_year_difference_bound_fails :
    ¬ (0 ≤ calculateAge (Time.midnightUTC 2030 1 1) (Time.midnightUTC 2025 12 15)
        ∧ calculateAge (Time.midnightUTC 2030 1 1) (Time.midnightUTC 2025 12 15)
            ≤ (Time.midnightUTC 2025 12 15).year - (Time.midnightUTC 2030 1 1).year) := by
  decide

/-- C2, amended: for all dob and now, `0 ≤ calculateAge dob now`, and the age is
at most the year difference `now.year - dob.year` clamped at 0 (so at most
the year difference itself whenever `dob.year ≤ now.year`). -/
theorem calculateAge_bounds (dob now : Time) :
    0 ≤ calculateAge dob now ∧ calculateAge dob now ≤ max 0 (now.year - dob.year) := by
  simp only [calculateAge]
  split_ifs <;> omega

/-- C10: `calculateAge` is monotone under calendar-date order: it does not
decrease when `now` moves to a later (or the same) date, and it does not
increase when `dob` moves to a later (or the same) date. -/
theorem calculateAge_monotone (dob now1 now2 now dob1 dob2 : Time)
    (hnow : now1.dateNotAfter now2) (hdob : dob1.dateNotAfter dob2) :
    calculateAge dob now1 ≤ calculateAge dob now2
    ∧ calculateAge dob2 now ≤ calculateAge dob1 now := by
  simp only [Time.dateNotAfter, dateLE] at hnow hdob
  constructor
  · simp only [calculateAge]
    split_ifs <;> omega
  · simp only [calculateAge]
    split_ifs <;> omega

/-- C10 at a concrete input: from 2025-05-09 to 2025-05-10 the age of someone
born 1990-05-10 goes from 34 to 35, and a dob of 1990-05-10 gives at least
the age that 1990-05-11 gives. -/
theorem calculateAge_monotone_witness :
    calculateAge (Time.midnightUTC 1990 5 10) (Time.midnightUTC 2025 5 9)
      ≤ calculateAge (Time.midnightUTC 1990 5 10) (Time.midnightUTC 2025 5 10)
    ∧ calculateAge (Time.midnightUTC 1990 5 11) (Time.midnightUTC 2025 5 10)
      ≤ calculateAge (Time.midnightUTC 1990 5 10) (Time.midnightUTC 2025 5 10) :=
  calculateAge_monotone (Time.midnightUTC 1990 5 10) (Time.midnightUTC 2025 5 9)
    (Time.midnightUTC 2025 5 10) (Time.midnightUTC 2025 5 10) (Time.midnightUTC 1990 5 10)
    (Time.midnightUTC 1990 5 11) (by decide) (by decide)

/-! ## `List` -/

/-- The loop of `List` appends to `out` the views of the records, in order. -/
theorem svcListLoop_eq_map (now : Time) (us : List DbUser) (out : List User) :
    svcListLoop now us out = out ++ us.map (fun u =>
      { ID := u.ID, Name := u.Name, Dob := u.Dob.Time, Age := calculateAge u.Dob.Time now }) := by
  induction us generalizing out with
  | nil => simp [svcListLoop]
  | cons u us ih => simp [svcListLoop, ih]

/-- C3: when the repository succeeds, `List` returns one view per record, in the
repository's order, the `i`-th view carrying the `i`-th record's identifier,
name and dob and the age `calculateAge record.dob now` for the one `now` of
the call; when the repository returns an error, `List` returns that error
and no views.  The state of the store is what the repository left. -/
theorem svcList_views_in_order {σ : Type} (repo : UserRepository σ) (now : Time) (s : σ) :
    (svcList repo now s).2 = (repo.List s).2
    ∧ (svcList repo now s).1.2 = (repo.List s).1.2
    ∧ ((repo.List s).1.2 = none →
        (svcList repo now s).1.1.length = (repo.List s).1.1.length
        ∧ ∀ (i : Nat) (u : DbUser), (repo.List s).1.1[i]? = some u →
            (svcList repo now s).1.1[i]? = some
              { ID := u.ID, Name := u.Name, Dob := u.Dob.Time,
                Age := calculateAge u.Dob.Time now })
    ∧ ((repo.List s).1.2 ≠ none → (svcList repo now s).1.1 = []) := by
  unfold svcList
  rcases h : repo.List s with ⟨⟨us, _ | e⟩, s1⟩
  · simp [svcListLoop_eq_map]
    intro i u hu
    exact ⟨u, hu, rfl, rfl, rfl, rfl⟩
  · simp

/-- C3 at a concrete input: over the store holding (1, "Alice", 1990-05-10) and
(2, "Bob", 2000-02-29), `List` on 2025-03-01 returns two views, the second
one Bob's with the age 25. -/
theorem svcList_views_in_order_witness :
    (svcList (userRepository storeQueries) (Time.midnightUTC 2025 3 1)
        [{ id := 1, name := "Alice", year := 1990, month := 5, day := 10 },
         { id := 2, name := "Bob", year := 2000, month := 2, day := 29 }]).1.1.length = 2
    ∧ (svcList (userRepository storeQueries) (Time.midnightUTC 2025 3 1)
        [{ id := 1, name := "Alice", year := 1990, month := 5, day := 10 },
         { id := 2, name := "Bob", year := 2000, month := 2, day := 29 }]).1.1[1]?
      = some { ID := 2, Name := "Bob", Dob := Time.midnightUTC 2000 2 29, Age := 25 } :=
  have h := (svcList_views_in_order (userRepository storeQueries) (Time.midnightUTC 2025 3 1)
    [{ id := 1, name := "Alice", year := 1990, month := 5, day := 10 },
     { id := 2, name := "Bob", year := 2000, month := 2, day := 29 }]).2.2.1 (by rfl)
  ⟨h.1, h.2 1 { ID := 2, Name := "Bob",
                Dob := { Time := Time.midnightUTC 2000 2 29, Valid := true } } (by rfl)⟩

/-! ## The `age` field of the encoded views -/

/-- The `age` field of an encoded view: absent for the zero age, else the age. -/
theorem marshalUser_age_field (v : User) (o : JObject) (h : marshalUser v = Except.ok o) :
    o.field "age" = if v.Age = 0 then none else some (JValue.num v.Age) := by
  unfold marshalUser at h
  split at h
  · cases h
  · injection h with h
    subst h
    by_cases h0 : v.Age = 0 <;> simp +decide [JObject.field, List.find?, h0]

/-- Encoding a list of views encodes each view, in order. -/
theorem marshalUsers_pointwise (vs : List User) (os : List JObject)
    (h : marshalUsers vs = Except.ok os) :
    os.length = vs.length
    ∧ ∀ (i : Nat) (v : User) (o : JObject), vs[i]? = some v → os[i]? = some o →
        marshalUser v = Except.ok o := by
  induction vs generalizing os with
  | nil =>
    simp only [marshalUsers] at h
    injection h with h
    subst h
    simp
  | cons v vs ih =>
    simp only [marshalUsers] at h
    split at h
    · cases h
    · rename_i o1 ho1
      split at h
      · cases h
      · rename_i os1 hos1
        injection h with h
        subst h
        obtain ⟨hlen, hpt⟩ := ih os1 hos1
        refine ⟨by simp [hlen], ?_⟩
        intro i v1 o hv ho
        cases i with
        | zero =>
          simp only [List.getElem?_cons_zero, Option.some.injEq] at hv ho
          subst hv; subst ho; exact ho1
        | succ i =>
          simp only [List.getElem?_cons_succ] at hv ho
          exact hpt i v1 o hv ho

/-- C4, as stated, fails for a record whose age is 0: for the stored record
(1, "Baby", 2025-06-01) and the clock 2025-12-15, `Get` succeeds, the age
is 0, and the encoded view has the fields `id`, `name` and `dob` only. -/
theorem get_view_of_age_zero_has_no_age_field :
    (svcGet (userRepository storeQueries) (Time.midnightUTC 2025 12 15) 1
        [{ id := 1, name := "Baby", year := 2025, month := 6, day := 1 }]).1.2 = none
    ∧ calculateAge (Time.midnightUTC 2025 6 1) (Time.midnightUTC 2025 12 15) = 0
    ∧ ∃ o, marshalUser (svcGet (userRepository storeQueries) (Time.midnightUTC 2025 12 15) 1
        [{ id := 1, name := "Baby", year := 2025, month := 6, day := 1 }]).1.1 = Except.ok o
      ∧ o = [("id", JValue.num 1), ("name", JValue.str "Baby"),
             ("dob", JValue.str "2025-06-01T00:00:00Z")]
      ∧ o.field "age" = none := by
  refine ⟨by decide, by decide, _, rfl, by decide, by decide⟩

/-- C4, amended: the encoded view of a successful `Get` or `List` carries the
field `age`, equal to `calculateAge dob now`, whenever that age is not 0,
and the encoded view of a successful `Create` or `Update` carries no field
`age`.  Here `u` is the record the repository returned and `o` the JSON
object `encoding/json` produced for the view; a view is encoded whenever its
dob is a UTC time with a year in 0..9999.  On the stored record
(1, "Alice", 1990-05-10) at the clock 2025-12-15 the view of `Get` encodes
with `age` 35, and the view of creating that record encodes without `age`. -/
theorem age_field_on_get_list_not_on_create_update {σ : Type} (repo : UserRepository σ)
    (now : Time) (id : Int) (creq : CreateUserRequest) (ureq : UpdateUserRequest) (s : σ) :
    (∀ (u : DbUser) (s1 : σ) (o : JObject), repo.GetByID id s = ((u, none), s1) →
        marshalUser (svcGet repo now id s).1.1 = Except.ok o →
        calculateAge u.Dob.Time now ≠ 0 →
        o.field "age" = some (JValue.num (calculateAge u.Dob.Time now)))
    ∧ (∀ (us : List DbUser) (s1 : σ) (os : List JObject), repo.List s = ((us, none), s1) →
        marshalUsers (svcList repo now s).1.1 = Except.ok os →
        os.length = us.length
        ∧ ∀ (i : Nat) (u : DbUser) (o : JObject), us[i]? = some u → os[i]? = some o →
            calculateAge u.Dob.Time now ≠ 0 →
            o.field "age" = some (JValue.num (calculateAge u.Dob.Time now)))
    ∧ (∀ (o : JObject), (svcCreate repo creq s).1.2 = none →
        marshalUser (svcCreate repo creq s).1.1 = Except.ok o → o.field "age" = none)
    ∧ (∀ (o : JObject), (svcUpdate repo id ureq s).1.2 = none →
        marshalUser (svcUpdate repo id ureq s).1.1 = Except.ok o → o.field "age" = none)
    ∧ (∀ (v : User), 0 ≤ v.Dob.year → v.Dob.year ≤ 9999 → v.Dob.offset = 0 →
        ∃ o, marshalUser v = Except.ok o)
    ∧ marshalUser (svcGet (userRepository storeQueries) (Time.midnightUTC 2025 12 15) 1
        [{ id := 1, name := "Alice", year := 1990, month := 5, day := 10 }]).1.1
      = Except.ok [("id", JValue.num 1), ("name", JValue.str "Alice"),
          ("dob", JValue.str "1990-05-10T00:00:00Z"), ("age", JValue.num 35)]
    ∧ marshalUser (svcCreate (userRepository storeQueries) { Name := "Alice", Dob := "1990-05-10" }
        []).1.1
      = Except.ok [("id", JValue.num 1), ("name", JValue.str "Alice"),
          ("dob", JValue.str "1990-05-10T00:00:00Z")] := by
  refine ⟨?_, ?_, ?_, ?_, ?_, by rfl, by rfl⟩
  rotate_left 4
  · intro v hlo hhi hoff
    have hrange : ¬ (v.Dob.year < 0 ∨ v.Dob.year > 9999) := by omega
    simp [marshalUser, timeMarshalJSON, hrange, hoff]
  · intro u s1 o hrepo hm hage
    have hv : (svcGet repo now id s).1.1 =
        { ID := u.ID, Name := u.Name, Dob := u.Dob.Time, Age := calculateAge u.Dob.Time now } := by
      simp [svcGet, hrepo]
    rw [hv] at hm
    rw [marshalUser_age_field _ _ hm]
    simp [hage]
  · intro us s1 os hrepo hm
    have hv : (svcList repo now s).1.1 = us.map (fun u =>
        { ID := u.ID, Name := u.Name, Dob := u.Dob.Time, Age := calculateAge u.Dob.Time now }) := by
      simp [svcList, hrepo, svcListLoop_eq_map]
    rw [hv] at hm
    obtain ⟨hlen, hpt⟩ := marshalUsers_pointwise _ _ hm
    refine ⟨by simpa using hlen, ?_⟩
    intro i u o hu ho hage
    have hvi : (us.map (fun u : DbUser =>
        ({ ID := u.ID, Name := u.Name, Dob := u.Dob.Time, Age := calculateAge u.Dob.Time now } : User)))[i]?
        = some { ID := u.ID, Name := u.Name, Dob := u.Dob.Time, Age := calculateAge u.Dob.Time now } := by
      simp [hu]
    rw [marshalUser_age_field _ _ (hpt i _ o hvi ho)]
    simp [hage]
  · intro o herr hm
    have hage : (svcCreate repo creq s).1.1.Age = 0 := by
      unfold svcCreate
      split
      · rfl
      · split <;> rfl
    rw [marshalUser_age_field _ _ hm]
    simp [hage]
  · intro o herr hm
    have hage : (svcUpdate repo id ureq s).1.1.Age = 0 := by
      unfold svcUpdate
      split
      · rfl
      · split <;> rfl
    rw [marshalUser_age_field _ _ hm]
    simp [hage]

/-- C4 at a concrete input: the view `Get` returns for the stored record
(1, "Alice", 1990-05-10) on 2025-12-15 encodes with the field `age` equal
to 35. -/
theorem age_field_on_get_list_not_on_create_update_witness :
    JObject.field [("id", JValue.num 1), ("name", JValue.str "Alice"),
        ("dob", JValue.str "1990-05-10T00:00:00Z"), ("age", JValue.num 35)] "age"
      = some (JValue.num (calculateAge (Time.midnightUTC 1990 5 10) (Time.midnightUTC 2025 12 15))) :=
  (age_field_on_get_list_not_on_create_update (userRepository storeQueries)
    (Time.midnightUTC 2025 12 15) 1 { Name := "Alice", Dob := "1990-05-10" }
    { Name := "Alice", Dob := "1990-05-10" }
    [{ id := 1, name := "Alice", year := 1990, month := 5, day := 10 }]).1
    { ID := 1, Name := "Alice", Dob := { Time := Time.midnightUTC 1990 5 10, Valid := true } }
    [{ id := 1, name := "Alice", year := 1990, month := 5, day := 10 }]
    [("id", JValue.num 1), ("name", JValue.str "Alice"),
        ("dob", JValue.str "1990-05-10T00:00:00Z"), ("age", JValue.num 35)]
    (by rfl) (by rfl) (by decide)

/-! ## Path parameters and the handlers -/

/-- A successful run of the `ParseUint` loop has read decimal digits only and
returns their value on top of the accumulator. -/
theorem parseUintLoop_ok (s0 : String) (l : List Char) (n m : Nat)
    (h : parseUintLoop s0 l n = Except.ok m) :
    l.all isDigitChar = true ∧ m = l.foldl (fun n c => 10 * n + (c.toNat - 48)) n := by
  induction l generalizing n with
  | nil =>
    simp only [parseUintLoop] at h
    injection h with h
    simp [h]
  | cons c rest ih =>
    simp only [parseUintLoop] at h
    by_cases hd : 48 ≤ c.toNat ∧ c.toNat ≤ 57
    · simp only [hd, and_self, if_true] at h
      split_ifs at h with h1 h2 h3
      obtain ⟨hall, hm⟩ := ih _ h
      have hn1 : (n * 10 + (c.toNat - 48)) % 2 ^ 64 = 10 * n + (c.toNat - 48) := by omega
      refine ⟨?_, ?_⟩
      · simp [isDigitChar, hd, hall]
      · rw [hm, hn1]; rfl
    · simp only [hd, if_false] at h
      by_cases hl : 97 ≤ lower c.toNat ∧ lower c.toNat ≤ 122
      · have hge : lower c.toNat - 97 + 10 ≥ 10 := by omega
        simp only [hl, and_self, if_true, hge] at h
        cases h
      · simp only [hl, if_false] at h
        cases h

/-- A successful `ParseUint` has read a non-empty string of decimal digits and
returns its value. -/
theorem parseUint_ok (l : List Char) (m : Nat) (h : parseUint l = Except.ok m) :
    l.isEmpty = false ∧ l.all isDigitChar = true ∧ m = decimalValue l := by
  unfold parseUint at h
  split_ifs at h with hnil
  obtain ⟨hall, hm⟩ := parseUintLoop_ok _ _ _ _ h
  refine ⟨?_, hall, hm⟩
  cases l with
  | nil => exact absurd rfl hnil
  | cons c rest => rfl

/-- A string that `ParseInt` accepts writes a base-10 integer representable in
64 bits. -/
theorem parseInt_ok_isBase10Int64 (s : String) (n : Int) (h : parseInt s = Except.ok n) :
    isBase10Int64 s = true := by
  unfold parseInt at h
  unfold isBase10Int64
  cases hs : s.data with
  | nil => simp only [hs] at h; cases h
  | cons c rest =>
    simp only [hs] at h ⊢
    split at h
    · cases h
    · cases h
    · rename_i un hun
      obtain ⟨hne, hall, hval⟩ := parseUint_ok _ _ hun
      by_cases hm : c = '-'
      · subst hm
        simp only [or_true, if_true] at hne hall hval
        simp only [if_true, hne, hall, Bool.not_false, Bool.true_and, decide_eq_true_eq]
        simp only [decide_True, Bool.not_true, Bool.false_eq_true, false_and, if_false,
          true_and] at h
        split_ifs at h with h1
        omega
      · by_cases hp : c = '+'
        · subst hp
          simp only [true_or, if_true] at hne hall hval
          simp only [if_true, hne, hall, Bool.not_false, Bool.true_and, decide_eq_true_eq,
            show ¬ ('+' = '-') by decide, if_false]
          simp only [show ¬ ('+' = '-') by decide, decide_False, Bool.not_false, true_and,
            Bool.false_eq_true, false_and, if_false] at h
          split_ifs at h with h1
          omega
        · simp only [hm, hp, or_self, if_false] at hne hall hval
          simp only [hm, hp, if_false, hne, hall, Bool.not_false, Bool.true_and,
            decide_eq_true_eq]
          simp only [hm, decide_False, Bool.not_false, true_and,
            Bool.false_eq_true, false_and, if_false] at h
          split_ifs at h with h1
          omega

/-- The function `parseID` fails on every path parameter that does not write a base-10
integer representable in 64 bits. -/
theorem parseID_error (c : Ctx) (h : isBase10Int64 c.id = false) :
    ∃ e, parseID c = Except.error e := by
  unfold parseID
  cases hp : parseInt c.id with
  | error e => exact ⟨e, rfl⟩
  | ok n =>
    have := parseInt_ok_isBase10Int64 _ _ hp
    rw [h] at this
    cases this

/-- C6: for every path parameter `id` that is not a base-10 integer
representable in 64 bits, the handlers `GetUser`, `UpdateUser` and
`DeleteUser` answer 400 with the body `{"error": "invalid id"}`, log
nothing, and leave the state of the store as it was, whatever the service
would do when called (so the service is not invoked). -/
theorem invalid_id_is_bad_request {σ : Type} (svc : UserService σ) (bind : Binding) (c : Ctx)
    (s : σ) (h : isBase10Int64 c.id = false) :
    ((GetUser svc c s).response = { status := 400, body := Body.error "invalid id" }
      ∧ (GetUser svc c s).logged = [] ∧ (GetUser svc c s).state = s)
    ∧ ((UpdateUser svc bind c s).response = { status := 400, body := Body.error "invalid id" }
      ∧ (UpdateUser svc bind c s).logged = [] ∧ (UpdateUser svc bind c s).state = s)
    ∧ ((DeleteUser svc c s).response = { status := 400, body := Body.error "invalid id" }
      ∧ (DeleteUser svc c s).logged = [] ∧ (DeleteUser svc c s).state = s) := by
  obtain ⟨e, he⟩ := parseID_error c h
  simp [GetUser, UpdateUser, DeleteUser, he]

/-- C6 at the path parameter `abc`, with a service over the store holding the
row (1, "Alice", 1990-05-10): 400 from all three handlers, store unchanged. -/
theorem invalid_id_is_bad_request_witness :
    isBase10Int64 "abc" = false
    ∧ (GetUser (NewUserService (userRepository storeQueries) (Time.midnightUTC 2025 12 15))
          { id := "abc", body := "" }
          [{ id := 1, name := "Alice", year := 1990, month := 5, day := 10 }]).response.status = 400
    ∧ (DeleteUser (NewUserService (userRepository storeQueries) (Time.midnightUTC 2025 12 15))
          { id := "abc", body := "" }
          [{ id := 1, name := "Alice", year := 1990, month := 5, day := 10 }]).state
        = [{ id := 1, name := "Alice", year := 1990, month := 5, day := 10 }] :=
  have h := invalid_id_is_bad_request
    (NewUserService (userRepository storeQueries) (Time.midnightUTC 2025 12 15))
    { parseCreate := fun _ => none, parseUpdate := fun _ => none,
      validateCreate := fun _ => none, validateUpdate := fun _ => none }
    { id := "abc", body := "" }
    [{ id := 1, name := "Alice", year := 1990, month := 5, day := 10 }] (by decide)
  ⟨by decide, by rw [h.1.1], h.2.2.2.2⟩

/-- C8, as stated, fails: when the database cannot be reached, `Get` returns an
error that is not the no-rows condition, and `GetUser` still answers 404,
not 500. -/
theorem get_user_persistence_failure_is_404 :
    (svcGet (userRepository unreachableQueries) (Time.midnightUTC 2025 12 15) 1 ()).1.2
        = some (GoError.other "connection refused")
    ∧ GoError.other "connection refused" ≠ GoError.errNoRows
    ∧ (GetUser (NewUserService (userRepository unreachableQueries) (Time.midnightUTC 2025 12 15))
          { id := "1", body := "" } ()).response.status = 404
    ∧ (GetUser (NewUserService (userRepository unreachableQueries) (Time.midnightUTC 2025 12 15))
          { id := "1", body := "" } ()).response.status ≠ 500 := by
  refine ⟨by decide, by decide, by decide, by decide⟩

/-- C8, amended: on GET /users/:id with a well-formed id, every service error
returned by `Get`, the no-rows condition and any other failure alike, is
answered 404 with the body `{"error": "user not found"}`; the error itself
goes to the server log and not to the client. -/
theorem get_user_service_error_is_404 {σ : Type} (svc : UserService σ) (c : Ctx) (s : σ)
    (id : Int) (e : GoError) (hid : parseID c = Except.ok id)
    (herr : (svc.Get id s).1.2 = some e) :
    (GetUser svc c s).response = { status := 404, body := Body.error "user not found" }
    ∧ (GetUser svc c s).logged = [("get user failed", e)]
    ∧ (GetUser svc c s).state = (svc.Get id s).2 := by
  unfold GetUser
  rw [hid]
  rcases hg : svc.Get id s with ⟨⟨u, _ | e1⟩, s1⟩
  · rw [hg] at herr; cases herr
  · rw [hg] at herr
    injection herr with herr
    subst herr
    simp [hg]

/-- C8 at a concrete input: GET /users/7 on an empty store meets the no-rows
condition and is answered 404. -/
theorem get_user_service_error_is_404_witness :
    (GetUser (NewUserService (userRepository storeQueries) (Time.midnightUTC 2025 12 15))
        { id := "7", body := "" } []).response
      = { status := 404, body := Body.error "user not found" }
    ∧ (GetUser (NewUserService (userRepository storeQueries) (Time.midnightUTC 2025 12 15))
        { id := "7", body := "" } []).logged = [("get user failed", GoError.errNoRows)] :=
  have h := get_user_service_error_is_404
    (NewUserService (userRepository storeQueries) (Time.midnightUTC 2025 12 15))
    { id := "7", body := "" } [] 7 GoError.errNoRows (by rfl) (by decide)
  ⟨h.1, h.2.1⟩

/-! ## Parsing the date of birth -/

/-- The digit test, in arithmetic. -/
theorem isDigitChar_iff (c : Char) : isDigitChar c = true ↔ 48 ≤ c.toNat ∧ c.toNat ≤ 57 := by
  simp [isDigitChar]

/-- The dash is not a digit. -/
theorem not_isDigitChar_dash : isDigitChar '-' = false := by decide

/-- One step of `leadingInt` on a digit, for an accumulator far from overflow. -/
theorem leadingIntLoop_digit (c : Char) (rest : List Char) (x : Nat)
    (hc : isDigitChar c = true) (hx : x ≤ 100000) :
    leadingIntLoop (c :: rest) x = leadingIntLoop rest (x * 10 + (c.toNat - 48)) := by
  rw [isDigitChar_iff] at hc
  have h1 : ¬ (c.toNat < 48 ∨ c.toNat > 57) := by omega
  have h2 : ¬ (x > 2 ^ 63 / 10) := by omega
  have h3 : ¬ (x * 10 + c.toNat - 48 > 2 ^ 63) := by omega
  have h4 : x * 10 + c.toNat - 48 = x * 10 + (c.toNat - 48) := by omega
  rw [h4] at h3
  simp only [leadingIntLoop, h1, h2, if_false, h4, h3]

/-- The function `leadingInt` stops at a byte that is not a digit. -/
theorem leadingIntLoop_nondigit (c : Char) (rest : List Char) (x : Nat)
    (hc : isDigitChar c = false) :
    leadingIntLoop (c :: rest) x = some (x, c :: rest) := by
  have h1 : c.toNat < 48 ∨ c.toNat > 57 := by
    by_contra hcon
    have : isDigitChar c = true := (isDigitChar_iff c).2 (by omega)
    rw [hc] at this; cases this
  simp only [leadingIntLoop, h1, if_true]

/-- The function `atoi` on four bytes, the first a digit: it succeeds exactly on four
digits, with their decimal value. -/
theorem atoi_four (y0 y1 y2 y3 : Char) (h0 : isDigitChar y0 = true) :
    atoi [y0, y1, y2, y3] =
      if isDigitChar y1 = true ∧ isDigitChar y2 = true ∧ isDigitChar y3 = true then
        some ((((((y0.toNat - 48) * 10 + (y1.toNat - 48)) * 10 + (y2.toNat - 48)) * 10
          + (y3.toNat - 48) : Nat) : Int))
      else none := by
  have hm : ¬ (y0 = '-') := by
    intro h; subst h; rw [not_isDigitChar_dash] at h0; cases h0
  have hp : ¬ (y0 = '+') := by
    intro h; subst h; revert h0; decide
  have hd0 : (y0.toNat - 48) ≤ 9 := by rw [isDigitChar_iff] at h0; omega
  simp only [atoi, hm, hp, or_self, if_false, decide_False, leadingInt, Bool.false_eq_true]
  rw [leadingIntLoop_digit y0 _ 0 h0 (by omega)]
  cases h1 : isDigitChar y1 with
  | false => simp [leadingIntLoop_nondigit _ _ _ h1]
  | true =>
    have hd1 : (y1.toNat - 48) ≤ 9 := by rw [isDigitChar_iff] at h1; omega
    rw [leadingIntLoop_digit y1 _ _ h1 (by omega)]
    cases h2 : isDigitChar y2 with
    | false => simp [leadingIntLoop_nondigit _ _ _ h2]
    | true =>
      have hd2 : (y2.toNat - 48) ≤ 9 := by rw [isDigitChar_iff] at h2; omega
      rw [leadingIntLoop_digit y2 _ _ h2 (by omega)]
      cases h3 : isDigitChar y3 with
      | false => simp [leadingIntLoop_nondigit _ _ _ h3]
      | true =>
        rw [leadingIntLoop_digit y3 _ _ h3 (by omega)]
        simp [leadingIntLoop]

/-- The function `skip` for the literal dash succeeds exactly on a leading dash. -/
theorem skipDash_eq_some (v rest : List Char) :
    skipDash v = some rest ↔ v = '-' :: rest := by
  cases v with
  | nil => simp [skipDash]
  | cons c t =>
    by_cases hc : c = '-'
    · subst hc; simp [skipDash]
    · simp [skipDash, hc]

/-- The function `getnum` with `fixed` succeeds exactly on two leading digits. -/
theorem getnum_fixed_eq_some (v rest : List Char) (n : Nat) :
    getnum v true = some (n, rest) ↔
      ∃ c0 c1, v = c0 :: c1 :: rest ∧ isDigitChar c0 = true ∧ isDigitChar c1 = true
        ∧ n = (c0.toNat - 48) * 10 + (c1.toNat - 48) := by
  rcases v with _ | ⟨c0, _ | ⟨c1, t⟩⟩
  · simp [getnum, isDigit]
  · cases h0 : isDigitChar c0 <;> simp [getnum, isDigit, h0]
  · cases h0 : isDigitChar c0 <;> cases h1 : isDigitChar c1 <;>
      simp [getnum, isDigit, h0, h1]
    constructor
    · rintro ⟨rfl, rfl⟩
      exact ⟨c0, c1, ⟨rfl, rfl, rfl⟩, h0, h1, rfl⟩
    · rintro ⟨a, b, ⟨rfl, rfl, rfl⟩, _, _, rfl⟩
      exact ⟨rfl, rfl⟩

/-- What `time.Parse` with the layout `2006-01-02` accepts, and what it returns:
exactly the ten-byte strings of four digits, dash, two digits, dash, two
digits with a month in 1..12 and a day of that month; the result is
midnight UTC of that date. -/
theorem timeParse_ok_shape (s : String) (t : Time) (h : timeParse s = Except.ok t) :
    ∃ y0 y1 y2 y3 m0 m1 d0 d1 : Char,
      s.data = [y0, y1, y2, y3, '-', m0, m1, '-', d0, d1]
      ∧ (isDigitChar y0 = true ∧ isDigitChar y1 = true ∧ isDigitChar y2 = true
          ∧ isDigitChar y3 = true)
      ∧ (isDigitChar m0 = true ∧ isDigitChar m1 = true ∧ isDigitChar d0 = true
          ∧ isDigitChar d1 = true)
      ∧ 1 ≤ (m0.toNat - 48) * 10 + (m1.toNat - 48)
      ∧ (m0.toNat - 48) * 10 + (m1.toNat - 48) ≤ 12
      ∧ 1 ≤ (d0.toNat - 48) * 10 + (d1.toNat - 48)
      ∧ (d0.toNat - 48) * 10 + (d1.toNat - 48)
          ≤ daysIn ((m0.toNat - 48) * 10 + (m1.toNat - 48))
              ((((((y0.toNat - 48) * 10 + (y1.toNat - 48)) * 10 + (y2.toNat - 48)) * 10
                + (y3.toNat - 48) : Nat) : Int))
      ∧ t = Time.midnightUTC
          ((((((y0.toNat - 48) * 10 + (y1.toNat - 48)) * 10 + (y2.toNat - 48)) * 10
                + (y3.toNat - 48) : Nat) : Int))
          ((m0.toNat - 48) * 10 + (m1.toNat - 48)) ((d0.toNat - 48) * 10 + (d1.toNat - 48)) := by
  simp only [timeParse] at h
  split_ifs at h with hlen
  split at h
  · cases h
  rename_i year hyear
  split at h
  · cases h
  rename_i v1 hv1
  split at h
  · cases h
  rename_i month v2 hm
  split_ifs at h with hmr
  split at h
  · cases h
  rename_i v3 hv3
  split at h
  · cases h
  rename_i day v4 hd
  split_ifs at h with hextra hdr
  injection h with h
  rw [skipDash_eq_some] at hv1 hv3
  rw [getnum_fixed_eq_some] at hm hd
  obtain ⟨m0, m1, hv1', hm0, hm1, hmonth⟩ := hm
  obtain ⟨d0, d1, hv3', hd0, hd1, hday⟩ := hd
  have hv4 : v4 = [] := by
    cases v4 with
    | nil => rfl
    | cons a b => simp at hextra
  subst hv4
  subst hv3'
  subst hv3
  subst hv1'
  -- the first four bytes
  rcases hs : s.data with _ | ⟨y0, _ | ⟨y1, _ | ⟨y2, _ | ⟨y3, rest⟩⟩⟩⟩
  all_goals rw [hs] at hlen hyear hv1
  all_goals simp only [List.length_nil, List.length_cons, not_or, not_lt] at hlen
  · omega
  · omega
  · omega
  · omega
  simp only [List.drop_succ_cons, List.drop_zero] at hv1
  subst hv1
  have hy0 : isDigitChar y0 = true := by simpa [isDigit] using hlen.2
  simp only [List.take_succ_cons, List.take_zero] at hyear
  rw [atoi_four _ _ _ _ hy0] at hyear
  split_ifs at hyear with hy
  injection hyear with hyear
  refine ⟨y0, y1, y2, y3, m0, m1, d0, d1, rfl, ⟨hy0, hy.1, hy.2.1, hy.2.2⟩,
    ⟨hm0, hm1, hd0, hd1⟩, ?_, ?_, ?_, ?_, ?_⟩
  · omega
  · omega
  · omega
  · rw [hyear, ← hmonth, ← hday]; omega
  · rw [hyear, ← hmonth, ← hday]; exact h.symm

/-- The converse: every string of that shape parses, to midnight UTC of its date. -/
theorem timeParse_of_shape (s : String) (y0 y1 y2 y3 m0 m1 d0 d1 : Char)
    (hs : s.data = [y0, y1, y2, y3, '-', m0, m1, '-', d0, d1])
    (hy : isDigitChar y0 = true ∧ isDigitChar y1 = true ∧ isDigitChar y2 = true
          ∧ isDigitChar y3 = true)
    (hmd : isDigitChar m0 = true ∧ isDigitChar m1 = true ∧ isDigitChar d0 = true
          ∧ isDigitChar d1 = true)
    (hm1 : 1 ≤ (m0.toNat - 48) * 10 + (m1.toNat - 48))
    (hm12 : (m0.toNat - 48) * 10 + (m1.toNat - 48) ≤ 12)
    (hd1 : 1 ≤ (d0.toNat - 48) * 10 + (d1.toNat - 48))
    (hdn : (d0.toNat - 48) * 10 + (d1.toNat - 48)
          ≤ daysIn ((m0.toNat - 48) * 10 + (m1.toNat - 48))
              ((((((y0.toNat - 48) * 10 + (y1.toNat - 48)) * 10 + (y2.toNat - 48)) * 10
                + (y3.toNat - 48) : Nat) : Int))) :
    timeParse s = Except.ok (Time.midnightUTC
          ((((((y0.toNat - 48) * 10 + (y1.toNat - 48)) * 10 + (y2.toNat - 48)) * 10
                + (y3.toNat - 48) : Nat) : Int))
          ((m0.toNat - 48) * 10 + (m1.toNat - 48)) ((d0.toNat - 48) * 10 + (d1.toNat - 48))) := by
  obtain ⟨hy0, hy1, hy2, hy3⟩ := hy
  obtain ⟨hm0, hm1', hd0, hd1'⟩ := hmd
  have hlen : ¬ ([y0, y1, y2, y3, '-', m0, m1, '-', d0, d1].length < 4
      ∨ (!isDigit [y0, y1, y2, y3, '-', m0, m1, '-', d0, d1] 0) = true) := by
    simp [isDigit, hy0]
  have hgm : getnum [m0, m1, '-', d0, d1] true
      = some ((m0.toNat - 48) * 10 + (m1.toNat - 48), ['-', d0, d1]) := by
    rw [getnum_fixed_eq_some]; exact ⟨m0, m1, rfl, hm0, hm1', rfl⟩
  have hgd : getnum [d0, d1] true
      = some ((d0.toNat - 48) * 10 + (d1.toNat - 48), []) := by
    rw [getnum_fixed_eq_some]; exact ⟨d0, d1, rfl, hd0, hd1', rfl⟩
  have hmr : ¬ ((m0.toNat - 48) * 10 + (m1.toNat - 48) ≤ 0
      ∨ 12 < (m0.toNat - 48) * 10 + (m1.toNat - 48)) := by omega
  have hdr : ¬ ((d0.toNat - 48) * 10 + (d1.toNat - 48) < 1
      ∨ (d0.toNat - 48) * 10 + (d1.toNat - 48)
          > daysIn ((m0.toNat - 48) * 10 + (m1.toNat - 48))
              ((((((y0.toNat - 48) * 10 + (y1.toNat - 48)) * 10 + (y2.toNat - 48)) * 10
                + (y3.toNat - 48) : Nat) : Int))) := by omega
  simp only [timeParse, hs, hlen, if_false, List.take_succ_cons, List.take_zero,
    atoi_four _ _ _ _ hy0, hy1, hy2, hy3, and_self, if_true, List.drop_succ_cons,
    List.drop_zero, skipDash, hgm, hmr, hgd, List.length_nil, ne_eq, not_true_eq_false, hdr]

/-- The length of a month, as `daysIn` computes it from the table. -/
theorem daysIn_eq (m : Nat) (y : Int) (h1 : 1 ≤ m) (h12 : m ≤ 12) :
    daysIn m y =
      if m = 2 then (if y % 4 = 0 ∧ (y % 100 ≠ 0 ∨ y % 400 = 0) then 29 else 28)
      else if m = 4 ∨ m = 6 ∨ m = 9 ∨ m = 11 then 30
      else 31 := by
  interval_cases m <;> simp [daysIn, daysBefore, isLeap]

/-- The function `time.Parse` with the layout `2006-01-02` succeeds exactly on the valid calendar
dates in strict `YYYY-MM-DD` form. -/
theorem timeParse_ok_iff_isStrictYMD (s : String) :
    (∃ t, timeParse s = Except.ok t) ↔ isStrictYMD s = true := by
  constructor
  · rintro ⟨t, ht⟩
    obtain ⟨y0, y1, y2, y3, m0, m1, d0, d1, hs, ⟨hy0, hy1, hy2, hy3⟩, ⟨hm0, hm1, hd0, hd1⟩,
      hmlo, hmhi, hdlo, hdhi, -⟩ := timeParse_ok_shape s t ht
    rw [daysIn_eq _ _ hmlo hmhi] at hdhi
    have e0 := (isDigitChar_iff y0).1 hy0
    have e1 := (isDigitChar_iff y1).1 hy1
    have e2 := (isDigitChar_iff y2).1 hy2
    have e3 := (isDigitChar_iff y3).1 hy3
    have hyear : (((y0.toNat : Int) - 48) * 1000 + ((y1.toNat : Int) - 48) * 100
        + ((y2.toNat : Int) - 48) * 10 + ((y3.toNat : Int) - 48))
        = (((((y0.toNat - 48) * 10 + (y1.toNat - 48)) * 10 + (y2.toNat - 48)) * 10
                + (y3.toNat - 48) : Nat) : Int) := by
      omega
    simp only [isStrictYMD, hs, hyear, List.all_cons, List.all_nil, hy0, hy1, hy2, hy3, hm0, hm1,
      hd0, hd1, Bool.and_self, decide_True, Bool.and_true, Bool.true_and, decide_eq_true_eq,
      hmlo, hmhi, hdlo]
    exact hdhi
  · intro h
    unfold isStrictYMD at h
    split at h
    · rename_i y0 y1 y2 y3 a m0 m1 b d0 d1 hs
      simp only [List.all_cons, List.all_nil, Bool.and_true, Bool.and_eq_true,
        decide_eq_true_eq] at h
      obtain ⟨⟨⟨⟨⟨⟨⟨hy0, hy1, hy2, hy3, hm0, hm1, hd0, hd1⟩, ha⟩, hb⟩, hmlo⟩, hmhi⟩, hdlo⟩, hdhi⟩ := h
      subst ha; subst hb
      have e0 := (isDigitChar_iff y0).1 hy0
      have e1 := (isDigitChar_iff y1).1 hy1
      have e2 := (isDigitChar_iff y2).1 hy2
      have e3 := (isDigitChar_iff y3).1 hy3
      have hyear : (((y0.toNat : Int) - 48) * 1000 + ((y1.toNat : Int) - 48) * 100
          + ((y2.toNat : Int) - 48) * 10 + ((y3.toNat : Int) - 48))
          = (((((y0.toNat - 48) * 10 + (y1.toNat - 48)) * 10 + (y2.toNat - 48)) * 10
                  + (y3.toNat - 48) : Nat) : Int) := by
        omega
      rw [hyear, ← daysIn_eq _ _ hmlo hmhi] at hdhi
      exact ⟨_, timeParse_of_shape s y0 y1 y2 y3 m0 m1 d0 d1 hs ⟨hy0, hy1, hy2, hy3⟩
        ⟨hm0, hm1, hd0, hd1⟩ hmlo hmhi hdlo hdhi⟩
    · cases h

/-- Every error of `time.Parse` is a `*time.ParseError` for the given value. -/
theorem timeParse_error_form (s : String) (e : GoError) (h : timeParse s = Except.error e) :
    ∃ msg, e = GoError.parseError s msg := by
  simp only [timeParse] at h
  repeat' split at h
  all_goals (cases h <;> exact ⟨_, rfl⟩)

/-- A string that is not a strict `YYYY-MM-DD` date makes `time.Parse` fail. -/
theorem timeParse_error_of_not_strict (s : String) (h : isStrictYMD s = false) :
    ∃ msg, timeParse s = Except.error (GoError.parseError s msg) := by
  cases hp : timeParse s with
  | error e =>
    obtain ⟨msg, hmsg⟩ := timeParse_error_form s e hp
    exact ⟨msg, by rw [hmsg]⟩
  | ok t =>
    have := (timeParse_ok_iff_isStrictYMD s).1 ⟨t, hp⟩
    rw [h] at this
    cases this

/-- C5: `Create` and `Update` fail exactly when the request's dob is not a
valid calendar date in strict `YYYY-MM-DD` form or the repository call (with
the name and the parsed dob) fails.  When the dob is not such a date the
result is the empty `User` with the parse error, and the state of the store
is the one before the call, whatever the repository would do when called
(so the repository is not called).  The four malformed examples of the
specification are not strict dates; `1990-05-10` is one. -/
theorem create_update_fail_iff_bad_dob_or_repository_error {σ : Type}
    (repo : UserRepository σ) (id : Int) (creq : CreateUserRequest) (ureq : UpdateUserRequest)
    (s : σ) :
    ((svcCreate repo creq s).1.2.isSome = true ↔
        (isStrictYMD creq.Dob = false
          ∨ ∃ t, timeParse creq.Dob = Except.ok t
              ∧ (repo.Create creq.Name t s).1.2.isSome = true))
    ∧ ((svcUpdate repo id ureq s).1.2.isSome = true ↔
        (isStrictYMD ureq.Dob = false
          ∨ ∃ t, timeParse ureq.Dob = Except.ok t
              ∧ (repo.Update id ureq.Name t s).1.2.isSome = true))
    ∧ (isStrictYMD creq.Dob = false →
        ∃ msg, svcCreate repo creq s
          = ((User.empty, some (GoError.parseError creq.Dob msg)), s))
    ∧ (isStrictYMD ureq.Dob = false →
        ∃ msg, svcUpdate repo id ureq s
          = ((User.empty, some (GoError.parseError ureq.Dob msg)), s))
    ∧ isStrictYMD "10-05-1990" = false ∧ isStrictYMD "1990/05/10" = false
    ∧ isStrictYMD "not-a-date" = false ∧ isStrictYMD "1990-02-30" = false
    ∧ isStrictYMD "1990-05-10" = true := by
  refine ⟨?_, ?_, ?_, ?_, by decide, by decide, by decide, by decide, by decide⟩
  · cases hp : timeParse creq.Dob with
    | error e =>
      have hns : isStrictYMD creq.Dob = false := by
        cases hb : isStrictYMD creq.Dob with
        | false => rfl
        | true =>
          obtain ⟨t, ht⟩ := (timeParse_ok_iff_isStrictYMD _).2 hb
          rw [hp] at ht; cases ht
      simp [svcCreate, hp, hns]
    | ok t =>
      have hst : isStrictYMD creq.Dob = true := (timeParse_ok_iff_isStrictYMD _).1 ⟨t, hp⟩
      rcases hr : repo.Create creq.Name t s with ⟨⟨u, _ | e⟩, s1⟩ <;>
        simp [svcCreate, hp, hst, hr]
  · cases hp : timeParse ureq.Dob with
    | error e =>
      have hns : isStrictYMD ureq.Dob = false := by
        cases hb : isStrictYMD ureq.Dob with
        | false => rfl
        | true =>
          obtain ⟨t, ht⟩ := (timeParse_ok_iff_isStrictYMD _).2 hb
          rw [hp] at ht; cases ht
      simp [svcUpdate, hp, hns]
    | ok t =>
      have hst : isStrictYMD ureq.Dob = true := (timeParse_ok_iff_isStrictYMD _).1 ⟨t, hp⟩
      rcases hr : repo.Update id ureq.Name t s with ⟨⟨u, _ | e⟩, s1⟩ <;>
        simp [svcUpdate, hp, hst, hr]
  · intro h
    obtain ⟨msg, hmsg⟩ := timeParse_error_of_not_strict _ h
    exact ⟨msg, by simp [svcCreate, hmsg]⟩
  · intro h
    obtain ⟨msg, hmsg⟩ := timeParse_error_of_not_strict _ h
    exact ⟨msg, by simp [svcUpdate, hmsg]⟩

/-- C5 at a concrete input: creating `{name: "Alice", dob: "not-a-date"}` over a
store holding one row returns the empty `User` with a parse error and leaves
the store as it was. -/
theorem create_update_fail_iff_bad_dob_or_repository_error_witness :
    ∃ msg, svcCreate (userRepository storeQueries) { Name := "Alice", Dob := "not-a-date" }
        [{ id := 1, name := "Bob", year := 2000, month := 2, day := 29 }]
      = ((User.empty, some (GoError.parseError "not-a-date" msg)),
          [{ id := 1, name := "Bob", year := 2000, month := 2, day := 29 }]) :=
  (create_update_fail_iff_bad_dob_or_repository_error (userRepository storeQueries) 1
    { Name := "Alice", Dob := "not-a-date" } { Name := "Alice", Dob := "not-a-date" }
    [{ id := 1, name := "Bob", year := 2000, month := 2, day := 29 }]).2.2.1 (by decide)

/-! ## Round trip through the store -/

/-- A digit byte is the byte of its digit value. -/
theorem digitChar_of_digit (c : Char) (d : Nat) (hc : isDigitChar c = true)
    (hd : d = c.toNat - 48) : digitChar d = c := by
  rw [isDigitChar_iff] at hc
  have : 48 + d = c.toNat := by omega
  rw [digitChar, this, Char.ofNat_toNat]

/-- What `Time.MarshalJSON` writes for a parsed date of birth: the input
string followed by `T00:00:00Z`. -/
theorem timeMarshalJSON_of_timeParse (d : String) (t : Time) (h : timeParse d = Except.ok t) :
    timeMarshalJSON t = Except.ok (d ++ "T00:00:00Z") := by
  obtain ⟨y0, y1, y2, y3, m0, m1, d0, d1, hs, ⟨hy0, hy1, hy2, hy3⟩, ⟨hm0, hm1, hd0, hd1⟩,
    hmlo, hmhi, hdlo, hdhi, ht⟩ := timeParse_ok_shape d t h
  have e0 := (isDigitChar_iff y0).1 hy0
  have e1 := (isDigitChar_iff y1).1 hy1
  have e2 := (isDigitChar_iff y2).1 hy2
  have e3 := (isDigitChar_iff y3).1 hy3
  have f0 := (isDigitChar_iff m0).1 hm0
  have f1 := (isDigitChar_iff m1).1 hm1
  have g0 := (isDigitChar_iff d0).1 hd0
  have g1 := (isDigitChar_iff d1).1 hd1
  have hdmax : daysIn ((m0.toNat - 48) * 10 + (m1.toNat - 48))
      ((((((y0.toNat - 48) * 10 + (y1.toNat - 48)) * 10 + (y2.toNat - 48)) * 10
                + (y3.toNat - 48) : Nat) : Int)) ≤ 31 := by
    rw [daysIn_eq _ _ hmlo hmhi]; split_ifs <;> omega
  generalize hY : (((y0.toNat - 48) * 10 + (y1.toNat - 48)) * 10 + (y2.toNat - 48)) * 10
                + (y3.toNat - 48) = Y at ht hdhi hdmax
  generalize hM : (m0.toNat - 48) * 10 + (m1.toNat - 48) = M at ht hdhi hmlo hmhi hdmax
  generalize hD : (d0.toNat - 48) * 10 + (d1.toNat - 48) = D at ht hdhi hdlo
  have hY4 : Y < 10000 := by omega
  have hyear : appendInt (Y : Int) 4 = [y0, y1, y2, y3] := by
    have hneg : ¬ ((Y : Int) < 0) := by omega
    simp only [appendInt, hneg, if_false, Int.natAbs_ofNat, hY4, and_true, List.nil_append]
    simp only [show ¬ ((4 : Nat) = 2) by decide, false_and, if_false, if_true]
    rw [digitChar_of_digit y0 _ hy0 (by omega), digitChar_of_digit y1 _ hy1 (by omega),
      digitChar_of_digit y2 _ hy2 (by omega), digitChar_of_digit y3 _ hy3 (by omega)]
  have hmonth : appendInt (M : Int) 2 = [m0, m1] := by
    have hneg : ¬ ((M : Int) < 0) := by omega
    have hlt : M < 100 := by omega
    simp only [appendInt, hneg, if_false, Int.natAbs_ofNat, hlt, and_self, if_true,
      List.nil_append]
    rw [digitChar_of_digit m0 _ hm0 (by omega), digitChar_of_digit m1 _ hm1 (by omega)]
  have hday : appendInt (D : Int) 2 = [d0, d1] := by
    have hneg : ¬ ((D : Int) < 0) := by omega
    have hlt : D < 100 := by omega
    simp only [appendInt, hneg, if_false, Int.natAbs_ofNat, hlt, and_self, if_true,
      List.nil_append]
    rw [digitChar_of_digit d0 _ hd0 (by omega), digitChar_of_digit d1 _ hd1 (by omega)]
  have hzero : appendInt ((0 : Nat) : Int) 2 = ['0', '0'] := by decide
  have hrange : ¬ ((Y : Int) < 0 ∨ (Y : Int) > 9999) := by omega
  subst ht
  have hfmt : appendFormatRFC3339 (Time.midnightUTC (Y : Int) M D)
      = d.data ++ "T00:00:00Z".data := by
    simp only [appendFormatRFC3339, Time.midnightUTC, hyear, hmonth, hday, hzero, appendNano,
      if_true, hs]
    rfl
  simp only [timeMarshalJSON, hfmt]
  simp only [Time.midnightUTC, hrange, if_false, ne_eq, not_true_eq_false, false_and]
  rfl

/-- The running maximum of the identifiers bounds its start and every row. -/
theorem foldl_max_id_bounds (s : Store) (m : Int) :
    m ≤ s.foldl (fun m r => max m r.id) m
    ∧ ∀ r ∈ s, r.id ≤ s.foldl (fun m r => max m r.id) m := by
  induction s generalizing m with
  | nil => simp
  | cons a rest ih =>
    obtain ⟨h1, h2⟩ := ih (max m a.id)
    simp only [List.foldl_cons, List.mem_cons, forall_eq_or_imp]
    refine ⟨by omega, by omega, h2⟩

/-- The next identifier is positive and above every identifier in use. -/
theorem nextID_fresh (s : Store) : 1 ≤ Store.nextID s ∧ ∀ r ∈ s, r.id < Store.nextID s := by
  obtain ⟨h1, h2⟩ := foldl_max_id_bounds s 0
  refine ⟨by unfold Store.nextID; omega, ?_⟩
  intro r hr
  have := h2 r hr
  unfold Store.nextID
  omega

/-- The narrowing `toInt32` keeps every value of the `int32` range. -/
theorem toInt32_of_int32 (id : Int) (hlo : -2 ^ 31 ≤ id) (hhi : id ≤ 2 ^ 31 - 1) :
    toInt32 id = id := by
  unfold toInt32
  omega

/-- Select-by-id right after an insert finds the inserted row. -/
theorem find_after_insert (s : Store) (r : Row) (h : r.id = Store.nextID s) :
    (s ++ [r]).find? (fun x => x.id = r.id) = some r := by
  have hnone : s.find? (fun x => decide (x.id = r.id)) = none := by
    rw [List.find?_eq_none]
    intro x hx
    have := (nextID_fresh s).2 x hx
    simp only [decide_eq_true_eq]
    omega
  rw [List.find?_append, hnone]
  simp

/-- C9, as stated, fails on the serialized dob: after creating
`{name: "Alice", dob: "1990-05-10"}` in an empty store and fetching it by
the returned identifier, the encoded view has the dob
`1990-05-10T00:00:00Z`, not `1990-05-10`. -/
theorem round_trip_dob_is_rfc3339_timestamp :
    marshalUser (svcGet (userRepository storeQueries) (Time.midnightUTC 2025 12 15)
        (svcCreate (userRepository storeQueries) { Name := "Alice", Dob := "1990-05-10" } []).1.1.ID
        (svcCreate (userRepository storeQueries) { Name := "Alice", Dob := "1990-05-10" } []).2).1.1
      = Except.ok [("id", JValue.num 1), ("name", JValue.str "Alice"),
          ("dob", JValue.str "1990-05-10T00:00:00Z"), ("age", JValue.num 35)]
    ∧ JObject.field [("id", JValue.num 1), ("name", JValue.str "Alice"),
          ("dob", JValue.str "1990-05-10T00:00:00Z"), ("age", JValue.num 35)] "dob"
        ≠ some (JValue.str "1990-05-10") := by
  refine ⟨by rfl, by decide⟩

/-- C9, amended: over the store as a map from identifier to (name, date) with an
identifier left to assign, for every name and every valid `YYYY-MM-DD`
string `d`, `Create` succeeds, and `Get` on the returned identifier at the
clock `now` succeeds with a view that has that identifier, the name, the
age `calculateAge (parse d) now`, and a dob that serializes as `d` followed
by `T00:00:00Z` (the RFC 3339 timestamp of midnight UTC on that date). -/
theorem create_then_get_round_trip (s : Store) (name d : String) (now : Time)
    (hd : isStrictYMD d = true) (hroom : Store.nextID s ≤ 2 ^ 31 - 1) :
    ∃ t, timeParse d = Except.ok t
      ∧ (svcCreate (userRepository storeQueries) { Name := name, Dob := d } s).1.2 = none
      ∧ (svcGet (userRepository storeQueries) now
          (svcCreate (userRepository storeQueries) { Name := name, Dob := d } s).1.1.ID
          (svcCreate (userRepository storeQueries) { Name := name, Dob := d } s).2).1
        = ({ ID := (svcCreate (userRepository storeQueries) { Name := name, Dob := d } s).1.1.ID,
             Name := name, Dob := t, Age := calculateAge t now }, none)
      ∧ timeMarshalJSON t = Except.ok (d ++ "T00:00:00Z")
      ∧ marshalUser (svcGet (userRepository storeQueries) now
          (svcCreate (userRepository storeQueries) { Name := name, Dob := d } s).1.1.ID
          (svcCreate (userRepository storeQueries) { Name := name, Dob := d } s).2).1.1
        = Except.ok ([("id", JValue.num (Store.nextID s)), ("name", JValue.str name),
            ("dob", JValue.str (d ++ "T00:00:00Z"))]
            ++ (if calculateAge t now = 0 then [] else [("age", JValue.num (calculateAge t now))])) := by
  obtain ⟨t, ht⟩ := (timeParse_ok_iff_isStrictYMD d).2 hd
  have hjson := timeMarshalJSON_of_timeParse d t ht
  obtain ⟨y0, y1, y2, y3, m0, m1, d0, d1, -, -, -, -, -, -, -, hmid⟩ := timeParse_ok_shape d t ht
  have hfresh := nextID_fresh s
  have hroom' : ¬ (Store.nextID s > 2 ^ 31 - 1) := by omega
  have hcreate : svcCreate (userRepository storeQueries) { Name := name, Dob := d } s
      = (({ ID := Store.nextID s, Name := name, Dob := t, Age := 0 }, none),
          s ++ [{ id := Store.nextID s, name := name, year := t.year, month := t.month,
                  day := t.day }]) := by
    simp only [svcCreate, ht, userRepository, storeQueries, toPgDate, hroom', if_false,
      Row.toDbUser]
    rw [hmid]
    rfl
  have hid : toInt32 (Store.nextID s) = Store.nextID s :=
    toInt32_of_int32 _ (by omega) hroom
  have hfind := find_after_insert s
    { id := Store.nextID s, name := name, year := t.year, month := t.month, day := t.day } rfl
  have hget : (svcGet (userRepository storeQueries) now (Store.nextID s)
      (s ++ [{ id := Store.nextID s, name := name, year := t.year, month := t.month,
               day := t.day }])).1
      = ({ ID := Store.nextID s, Name := name, Dob := t, Age := calculateAge t now }, none) := by
    simp only [svcGet, userRepository, storeQueries, hid, hfind, Row.toDbUser]
    rw [hmid]
    rfl
  refine ⟨t, ht, ?_, ?_, hjson, ?_⟩
  · rw [hcreate]
  · rw [hcreate]; exact hget
  · rw [hcreate]
    simp only []
    rw [hget]
    simp only [marshalUser, hjson]

/-- C9 at a concrete input: Alice, born 1990-05-10, created in an empty store
and fetched on 2025-12-15. -/
theorem create_then_get_round_trip_witness :
    isStrictYMD "1990-05-10" = true ∧ Store.nextID [] ≤ 2 ^ 31 - 1
    ∧ ∃ t, timeParse "1990-05-10" = Except.ok t
      ∧ (svcGet (userRepository storeQueries) (Time.midnightUTC 2025 12 15)
          (svcCreate (userRepository storeQueries) { Name := "Alice", Dob := "1990-05-10" } []).1.1.ID
          (svcCreate (userRepository storeQueries) { Name := "Alice", Dob := "1990-05-10" } []).2).1
        = ({ ID := (svcCreate (userRepository storeQueries)
                      { Name := "Alice", Dob := "1990-05-10" } []).1.1.ID,
             Name := "Alice", Dob := t, Age := calculateAge t (Time.midnightUTC 2025 12 15) }, none)
      ∧ timeMarshalJSON t = Except.ok ("1990-05-10" ++ "T00:00:00Z") :=
  have h := create_then_get_round_trip [] "Alice" "1990-05-10" (Time.midnightUTC 2025 12 15)
    (by decide) (by decide)
  ⟨by decide, by decide, h.choose, h.choose_spec.1, h.choose_spec.2.2.1, h.choose_spec.2.2.2.1⟩

/-! ## Identifiers beyond 32 bits -/

/-- Select-by-id on the store returns only a row whose key is the key asked for. -/
theorem storeQueries_getUser_key (k : Int) (s s1 : Store) (u : DbUser)
    (h : storeQueries.GetUser k s = ((u, none), s1)) : u.ID = k := by
  simp only [storeQueries] at h
  split at h
  · rename_i r hr
    have hk := List.find?_some hr
    simp only [decide_eq_true_eq] at hk
    simp only [Prod.mk.injEq, and_true] at h
    rw [← h.1]
    exact hk
  · simp at h

/-- Within the `int32` range `Get` reads the row it was asked for: over queries
that return only a row whose key is the key asked for, a successful
`Get id` with `-2 ^ 31 ≤ id ≤ 2 ^ 31 - 1` returns a view whose identifier
is `id`. -/
theorem svcGet_id_within_int32 {σ : Type} (q : Queries σ) (now : Time) (id : Int) (s s1 : σ)
    (v : User)
    (hq : ∀ (k : Int) (s s1 : σ) (u : DbUser), q.GetUser k s = ((u, none), s1) → u.ID = k)
    (hlo : -2 ^ 31 ≤ id) (hhi : id ≤ 2 ^ 31 - 1)
    (h : svcGet (userRepository q) now id s = ((v, none), s1)) : v.ID = id := by
  simp only [svcGet, userRepository, toInt32_of_int32 id hlo hhi] at h
  rcases hg : q.GetUser id s with ⟨⟨u, _ | e⟩, s2⟩
  · rw [hg] at h
    simp only [Prod.mk.injEq, and_true] at h
    rw [← h.1]
    exact hq id s s2 u hg
  · rw [hg] at h
    simp at h

/-- C7 at the identifier 4294967297 (`2 ^ 32 + 1`), over the store holding the
one row (1, "Alice", 1990-05-10): `toInt32` maps the identifier to 1, so
`Get` succeeds with the view of row 1, GET /users/4294967297 answers 200,
`Update` rewrites row 1 and `Delete` removes row 1, although no row has the
identifier asked for. -/
theorem wide_id_addresses_another_row :
    toInt32 4294967297 = 1
    ∧ (svcGet (userRepository storeQueries) (Time.midnightUTC 2025 12 15) 4294967297
        [{ id := 1, name := "Alice", year := 1990, month := 5, day := 10 }]).1
      = ({ ID := 1, Name := "Alice", Dob := Time.midnightUTC 1990 5 10, Age := 35 }, none)
    ∧ (1 : Int) ≠ 4294967297
    ∧ (GetUser (NewUserService (userRepository storeQueries) (Time.midnightUTC 2025 12 15))
        { id := "4294967297", body := "" }
        [{ id := 1, name := "Alice", year := 1990, month := 5, day := 10 }]).response.status = 200
    ∧ (svcUpdate (userRepository storeQueries) 4294967297 { Name := "Bob", Dob := "2000-01-02" }
        [{ id := 1, name := "Alice", year := 1990, month := 5, day := 10 }]).2
      = [{ id := 1, name := "Bob", year := 2000, month := 1, day := 2 }]
    ∧ (svcDelete (userRepository storeQueries) 4294967297
        [{ id := 1, name := "Alice", year := 1990, month := 5, day := 10 }]).2 = [] := by
  refine ⟨by decide, by decide, by decide, by decide, by decide, by decide⟩

end GoUsersApi
